import Mathlib

/-!
Verification development for the `n8n-nodes-crawl-and-scrape` node
(`src/nodes/CrawleeNode/CrawleeNode.node.ts`).

The single source file defines an n8n node whose `execute` method loops over
the input items and, per item, reads the `url`, `operation` and (for
`extractLinks`) `maxDepth` parameters, constructs a `CheerioCrawler`, runs it
on the seed URL augmented with a cache-busting timestamp parameter, and pushes
result records to `returnData`.  Errors are handled per item by a
`try`/`catch`/`finally` with a `continueOnFail` branch and a conditional
`crawler.teardown()` in the `finally`.

The shallow embedding below models:
  - JS strings as Lean `String` (sequence of characters; the UTF-16 unit vs
    codepoint distinction is abstracted away, and `String.prototype.trim`,
    `includes`, `substring` are modelled by char-list functions because they
    are pure sequence operations);
  - the platform's WHATWG `new URL(href, base)` resolution (an external
    capability invoked at line 114 of the source) by a partial model
    `resolveUrl` that is faithful on http(s)-style URLs: see its doc comment;
  - the `crawlee` library's `CheerioCrawler.run` (external capability) by an
    environment `Env`: `run` resolves normally even when every fetch fails
    (failed requests are retried and then handed to the default
    `failedRequestHandler`, which only logs — `run()` itself does not reject
    on fetch or handler failure), so a seed-fetch failure is `Env.fetch`
    returning `none` while `run` completes; `Env.runFails` models the cases
    where `run()` itself rejects before any fetch (e.g. the seed `Request`
    cannot be constructed), which is the only way an error escapes `run` into
    the `catch`/`finally` of `execute`;
  - per-item control flow as an event trace (`Event`): crawler construction,
    fetch attempts, records pushed to `returnData`, items pushed back onto
    the *input* list by the `continueOnFail` branch, `teardown()` calls, and
    the error finally raised to the host.
-/

namespace CrawleeNode

/-! ## String primitives (models of JS string methods) -/

/-- Model of `String.prototype.includes('?')` specialised to a single
character: character membership in the string. -/
def containsChar (s : String) (c : Char) : Bool :=
  s.data.contains c

/-- Trim whitespace from both ends of a character list. -/
def trimChars (l : List Char) : List Char :=
  ((l.dropWhile Char.isWhitespace).reverse.dropWhile Char.isWhitespace).reverse

/-- Model of `String.prototype.trim()`: strips leading and trailing
whitespace. -/
def jsTrim (s : String) : String :=
  ⟨trimChars s.data⟩

/-- Model of `String.prototype.substring(0, n)`: the first `n` characters. -/
def substringTo (s : String) (n : Nat) : String :=
  ⟨s.data.take n⟩

/-! ## URL resolution (model of the platform's WHATWG `new URL(href, base)`)

The source pushes `new URL(href, request.url).href` for each discovered
`href`, skipping the ones for which the constructor throws.  `URL` is the
platform's WHATWG URL parser, an external capability of this repository, so
it is modelled here, restricted to http(s)-style URLs:

  - an absolute URL `scheme://host/path…` with a syntactically valid scheme
    and host parses and serializes back as itself (a missing path becomes
    `/`, per the WHATWG special-scheme rule);
  - a protocol-relative `//host/…`, root-relative `/…`, or path-relative
    reference is resolved against the base, with the base's query dropped
    for relative paths;
  - an invalid percent-escape such as `%%%` is NOT an error: the WHATWG
    basic URL parser's path state treats a `%` not followed by two hex
    digits as a non-fatal validation error and keeps it literally, so
    `new URL('%%%', 'https://x.test/')` succeeds with path `/%%%`;
  - a host containing a forbidden host character (e.g. `[`) fails, which
    models the throwing cases.

Percent-encoding normalization, default-port elision, dot-segment removal,
case normalization and opaque-path schemes (`mailto:` …) are outside the
model; no claim exercises them. -/

/-- Scheme characters after the leading letter, per RFC 3986 / WHATWG. -/
def isSchemeChar (c : Char) : Bool :=
  c.isAlphanum || c = '+' || c = '-' || c = '.'

/-- A syntactically valid scheme: a letter followed by scheme characters. -/
def validScheme (s : String) : Bool :=
  match s.data with
  | [] => false
  | c :: rest => c.isAlpha && rest.all isSchemeChar

/-- Characters the WHATWG parser forbids in a host. -/
def forbiddenHostChar (c : Char) : Bool :=
  c = ' ' || c = '/' || c = '?' || c = '#' || c = '@' || c = '[' || c = ']' ||
    c = '\\' || c = '<' || c = '>' || c = '^' || c = '|'

/-- A syntactically valid (non-empty) host. -/
def validHost (s : String) : Bool :=
  !s.data.isEmpty && s.data.all (fun c => !forbiddenHostChar c)

/-- Parsed form of an absolute http(s)-style URL. -/
structure ParsedUrl where
  scheme : String
  host : String
  pathAndRest : String
deriving DecidableEq

/-- Serialization of a parsed URL, as `URL.prototype.href` would render it. -/
def serializeUrl (u : ParsedUrl) : String :=
  u.scheme ++ "://" ++ u.host ++ u.pathAndRest

/-- Split a character list at the first `:`, requiring it to be followed by
`//` (the special-scheme authority marker). -/
def splitSchemeSep : List Char → Option (List Char × List Char)
  | [] => none
  | c :: rest =>
    if c = ':' then
      match rest with
      | '/' :: '/' :: r => some ([], r)
      | _ => none
    else
      (splitSchemeSep rest).map fun p => (c :: p.1, p.2)

/-- Characters that end the host portion of an authority. -/
def notHostEnd (c : Char) : Bool :=
  !(decide (c = '/') || decide (c = '?') || decide (c = '#'))

/-- Does the string start with `/` (a root-relative reference, and also the
invariant shape of every parsed path)? -/
def rootRelative (s : String) : Bool :=
  match s.data with
  | c :: _ => decide (c = '/')
  | [] => false

/-- Parse an absolute http(s)-style URL into scheme, host, and
path-plus-query-plus-fragment. -/
def parseAbsolute (s : String) : Option ParsedUrl :=
  match splitSchemeSep s.data with
  | none => none
  | some (schemeChars, rest) =>
    if validScheme ⟨schemeChars⟩ then
      let hostChars := rest.takeWhile notHostEnd
      let tail := rest.dropWhile notHostEnd
      if validHost ⟨hostChars⟩ then
        if rootRelative ⟨tail⟩ then some ⟨⟨schemeChars⟩, ⟨hostChars⟩, ⟨tail⟩⟩
        else some ⟨⟨schemeChars⟩, ⟨hostChars⟩, ⟨'/' :: tail⟩⟩
      else none
    else none

/-- Does the string start with `//` (a protocol-relative reference)? -/
def protocolRelative (s : String) : Bool :=
  match s.data with
  | c1 :: c2 :: _ => decide (c1 = '/') && decide (c2 = '/')
  | _ => false

/-- Prefix of a character list up to and including its last `/`, or `[]`
when it has none. -/
def dirOfChars : List Char → List Char
  | [] => []
  | c :: rest =>
    let r := dirOfChars rest
    if r = [] then (if c = '/' then ['/'] else []) else c :: r

/-- Characters that start the query or fragment of a URL. -/
def notQueryStart (c : Char) : Bool :=
  !(decide (c = '?') || decide (c = '#'))

/-- Directory part of a path (query and fragment dropped, then everything
up to and including the last `/`). -/
def dirOf (p : String) : String :=
  ⟨dirOfChars (p.data.takeWhile notQueryStart)⟩

/-- Model of `new URL(href, base).href`: `some` is a successful resolution,
`none` models the constructor throwing (the source skips those hrefs). -/
def resolveUrl (href base : String) : Option String :=
  match parseAbsolute href with
  | some u => some (serializeUrl u)
  | none =>
    match parseAbsolute base with
    | none => none
    | some b =>
      if protocolRelative href then
        (parseAbsolute (b.scheme ++ ":" ++ href)).map serializeUrl
      else if rootRelative href then
        some (serializeUrl ⟨b.scheme, b.host, href⟩)
      else if href = "" then
        some (serializeUrl b)
      else
        some (serializeUrl ⟨b.scheme, b.host, dirOf b.pathAndRest ++ href⟩)

/-- An absolute, syntactically valid URL in the sense of the model: one the
parser accepts. -/
def isValidAbsoluteUrl (s : String) : Bool :=
  (parseAbsolute s).isSome

/-! ## Source-level helpers -/

/-- Embedding of `appendTimestampToUrl` (source lines 12–15): choose `&` when
the URL already contains `?`, else `?`, and append `_=<Date.now()>`. -/
def appendTimestampToUrl (url : String) (now : Nat) : String :=
  let separator := if containsChar url '?' then "&" else "?"
  url ++ separator ++ "_=" ++ toString now

/-- Order-preserving first-occurrence deduplication: the embedding of
`[...new Set(xs)]` (source line 129; JS `Set` iterates in insertion order
and keeps the first occurrence of each string). -/
def dedup : List String → List String
  | [] => []
  | x :: xs => x :: (dedup xs).filter (fun y => decide (y ≠ x))

/-- Truncation with the `"..."` marker: the embedding of
`s.length > cap ? s.substring(0, cap) + '...' : s`
(source lines 152 and 178). -/
def truncateTo (cap : Nat) (s : String) : String :=
  if s.length > cap then substringTo s cap ++ "..." else s

/-- Result stored by the `extractText` request handler (source lines
151–152): body text trimmed, then capped at 50,000 characters. -/
def extractTextResult (bodyText : String) : String :=
  truncateTo 50000 (jsTrim bodyText)

/-- Result stored by the `extractHtml` request handler (source line 178):
raw body capped at 100,000 characters. -/
def extractHtmlResult (body : String) : String :=
  truncateTo 100000 body

/-- Embedding of the `extractLinks` request handler's link harvesting
(source lines 109–119): for each `href` attribute of an `a[href]` element,
skip it when empty (`if (href)`), resolve it against `request.url`, and skip
it when `new URL` throws. -/
def handlerLinks (hrefs : List String) (requestUrl : String) : List String :=
  hrefs.filterMap fun href => if href = "" then none else resolveUrl href requestUrl

/-! ## Crawler configuration -/

/-- The `CheerioCrawler` constructor options the source sets. -/
structure CrawlerOptions where
  maxRequestsPerCrawl : Nat
  requestHandlerTimeoutSecs : Nat
  useSessionPool : Bool
  maxConcurrency : Nat
deriving DecidableEq

/-- Options for the `extractLinks` crawler (source lines 101–105). -/
def extractLinksOptions (maxDepth : Nat) : CrawlerOptions :=
  { maxRequestsPerCrawl := min 100 (maxDepth * 50)
    requestHandlerTimeoutSecs := 30
    useSessionPool := false
    maxConcurrency := 5 }

/-- Options for the `extractText` and `extractHtml` crawlers (source lines
143–147 and 170–174). -/
def singlePageOptions : CrawlerOptions :=
  { maxRequestsPerCrawl := 1
    requestHandlerTimeoutSecs := 30
    useSessionPool := false
    maxConcurrency := 1 }

/-! ## Data model of one item's processing -/

/-- A successfully fetched and parsed page, as consumed by the request
handlers: the `href` attributes of its `a[href]` elements, the visible text
of its `body`, and its raw markup. -/
structure Page where
  hrefs : List String
  bodyText : String
  body : String

/-- External-world parameters of one `execute` call: the fetch capability
(`none` = connection failure or timeout on that URL, after which
`crawler.run` still resolves), whether `crawler.run` itself rejects before
any fetch (e.g. an unconstructible seed `Request`), and the fixed value of
`Date.now()`. -/
structure Env where
  fetch : String → Option Page
  runFails : Bool
  now : Nat

/-- One input item's parameter values as resolved for its index. -/
structure InputItem where
  url : String
  operation : String
  maxDepth : Nat

/-- The host's continue-on-failure setting (`this.continueOnFail()`). -/
structure HostConfig where
  continueOnFail : Bool

/-- Node parameters as a function of the item index, the way
`getNodeParameter(name, itemIndex, default)` resolves them. -/
structure NodeParams where
  url : Nat → String
  operation : Nat → String
  maxDepth : Nat → Nat

/-- Payload of a success record (`data` field, source lines 134–137,
157–160, 183–186). -/
inductive PayloadData
  | links (url : String) (links : List String)
  | text (url : String) (text : String)
  | html (url : String) (html : String)
deriving DecidableEq

/-- A record pushed to `returnData`. -/
structure OutRecord where
  status : String
  message : String
  data : PayloadData
deriving DecidableEq

/-- The kinds of error that can be thrown inside the per-item `try` block. -/
inductive ErrKind
  | validation
  | runFailure
deriving DecidableEq

/-- An error as it reaches the per-item boundary: its kind and the
`itemIndex` annotated onto it by the `catch` block. -/
structure ThrownErr where
  kind : ErrKind
  itemIndex : Nat
deriving DecidableEq

/-- Observable events of one item's processing, in order. -/
inductive Event
  | constructCrawler (opts : CrawlerOptions)
  | fetchAttempt (url : String)
  | output (r : OutRecord)
  | pushInput (e : ThrownErr)
  | teardown
  | raise (e : ThrownErr)
deriving DecidableEq

/-- The `crawledData` accumulator after `crawler.run` in the `extractLinks`
branch: one `{url: originalUrl, links}` entry per successfully handled page
(zero entries when the seed fetch failed, since the handler never ran). -/
def linksCrawlResult (env : Env) (originalUrl : String) : List (String × List String) :=
  match env.fetch (appendTimestampToUrl originalUrl env.now) with
  | some page => [(originalUrl, handlerLinks page.hrefs (appendTimestampToUrl originalUrl env.now))]
  | none => []

/-- `uniqueLinks` of the `extractLinks` branch (source line 129):
`[...new Set(crawledData.flatMap(item => item.links))]`. -/
def uniqueLinksOf (env : Env) (originalUrl : String) : List String :=
  dedup ((linksCrawlResult env originalUrl).map Prod.snd).flatten

/-- Events produced by the `extractText` request handler during `run`: one
success record when the seed page was fetched, nothing when the fetch
failed (the handler never runs). -/
def textHandlerEvents (env : Env) (originalUrl : String) : List Event :=
  match env.fetch (appendTimestampToUrl originalUrl env.now) with
  | some page =>
    [Event.output ⟨"success", "Text extraction finished",
      PayloadData.text originalUrl (extractTextResult page.bodyText)⟩]
  | none => []

/-- Events produced by the `extractHtml` request handler during `run`. -/
def htmlHandlerEvents (env : Env) (originalUrl : String) : List Event :=
  match env.fetch (appendTimestampToUrl originalUrl env.now) with
  | some page =>
    [Event.output ⟨"success", "HTML extraction finished",
      PayloadData.html originalUrl (extractHtmlResult page.body)⟩]
  | none => []

/-- Embedding of one iteration of the item loop of `execute` (source lines
86–215): the `try` body (url validation, operation dispatch, crawler
construction, `run`, result push, `crawler = null` on the successful path),
the `catch` (push the annotated item back onto the *input* list when
`continueOnFail()`, else re-throw annotated with `itemIndex`), and the
`finally` (call `teardown()` exactly when `crawler` is still non-null,
swallowing teardown errors).  The returned trace lists the observable
events in program order; a trailing `Event.raise` is the error propagating
to the host after the `finally` ran. -/
def processItem (env : Env) (cfg : HostConfig) (item : InputItem) (itemIndex : Nat) :
    List Event :=
  let url := item.url
  let tryResult : List Event × Option ErrKind × Bool :=
    if url = "" then
      ([], some ErrKind.validation, false)
    else if item.operation = "extractLinks" then
      let opts := extractLinksOptions item.maxDepth
      if env.runFails then
        ([Event.constructCrawler opts], some ErrKind.runFailure, true)
      else
        ([Event.constructCrawler opts,
          Event.fetchAttempt (appendTimestampToUrl url env.now),
          Event.output ⟨"success", "Crawling finished",
            PayloadData.links url (uniqueLinksOf env url)⟩],
         none, false)
    else if item.operation = "extractText" then
      if env.runFails then
        ([Event.constructCrawler singlePageOptions], some ErrKind.runFailure, true)
      else
        ([Event.constructCrawler singlePageOptions,
          Event.fetchAttempt (appendTimestampToUrl url env.now)] ++ textHandlerEvents env url,
         none, false)
    else if item.operation = "extractHtml" then
      if env.runFails then
        ([Event.constructCrawler singlePageOptions], some ErrKind.runFailure, true)
      else
        ([Event.constructCrawler singlePageOptions,
          Event.fetchAttempt (appendTimestampToUrl url env.now)] ++ htmlHandlerEvents env url,
         none, false)
    else
      ([], none, false)
  let catchResult : List Event × Option ThrownErr :=
    match tryResult.2.1 with
    | none => ([], none)
    | some kind =>
      if cfg.continueOnFail then ([Event.pushInput ⟨kind, itemIndex⟩], none)
      else ([], some ⟨kind, itemIndex⟩)
  let finallyEvents : List Event := if tryResult.2.2 then [Event.teardown] else []
  let raiseEvents : List Event :=
    match catchResult.2 with
    | some e => [Event.raise e]
    | none => []
  tryResult.1 ++ catchResult.1 ++ finallyEvents ++ raiseEvents

/-! ## Trace observations -/

/-- Records pushed to `returnData` during a trace. -/
def outputsOf (tr : List Event) : List OutRecord :=
  tr.filterMap fun e =>
    match e with
    | .output r => some r
    | _ => none

/-- URLs against which a fetch was attempted during a trace. -/
def fetchUrlsOf (tr : List Event) : List String :=
  tr.filterMap fun e =>
    match e with
    | .fetchAttempt u => some u
    | _ => none

/-- The error, if any, that propagated to the host from a trace. -/
def raisedOf (tr : List Event) : Option ThrownErr :=
  (tr.filterMap fun e =>
    match e with
    | .raise err => some err
    | _ => none).head?

/-- Number of items appended back onto the input list by the `catch`. -/
def pushCountOf (tr : List Event) : Nat :=
  tr.countP fun e =>
    match e with
    | .pushInput _ => true
    | _ => false

/-- Number of `teardown()` invocations in a trace. -/
def teardownCountOf (tr : List Event) : Nat :=
  tr.countP fun e =>
    match e with
    | .teardown => true
    | _ => false

/-- Link list of a record's payload (empty for text/html payloads). -/
def linksOfRecord (r : OutRecord) : List String :=
  match r.data with
  | .links _ ls => ls
  | _ => []

/-- The `url` field of a payload. -/
def payloadUrlOf : PayloadData → String
  | .links u _ => u
  | .text u _ => u
  | .html u _ => u

/-- A well-formed link list: no duplicates, and every entry an absolute,
syntactically valid URL. -/
def goodLinks (ls : List String) : Prop :=
  ls.Nodup ∧ ∀ x ∈ ls, isValidAbsoluteUrl x = true

/-- Every record output in the trace carries exactly this `url` in its
payload. -/
def outputsUseUrl (tr : List Event) (u : String) : Prop :=
  ∀ r ∈ outputsOf tr, payloadUrlOf r.data = u

/-- Embedding of the whole item loop of `execute` with explicit fuel: the
loop condition `itemIndex < items.length` is re-evaluated each iteration
and the `continueOnFail` branch pushes onto `items`, so the list can grow
while iterating.  `none` means the loop did not terminate within `fuel`
iterations; `some (Except.error e)` is an error thrown to the host
(aborting the remaining items, `returnData` discarded); `some (Except.ok
racc)` is a normal return of `returnData`. -/
def executeLoop (env : Env) (cfg : HostConfig) (params : NodeParams) :
    Nat → Nat → Nat → List OutRecord → Option (Except ThrownErr (List OutRecord))
  | 0, itemsLen, itemIndex, acc =>
    if itemIndex < itemsLen then none else some (Except.ok acc)
  | fuel + 1, itemsLen, itemIndex, acc =>
    if itemIndex < itemsLen then
      let tr := processItem env cfg
        ⟨params.url itemIndex, params.operation itemIndex, params.maxDepth itemIndex⟩ itemIndex
      match raisedOf tr with
      | some e => some (Except.error e)
      | none =>
        executeLoop env cfg params fuel (itemsLen + pushCountOf tr) (itemIndex + 1)
          (acc ++ outputsOf tr)
    else some (Except.ok acc)

/-! ## Concrete fixtures used by counterexamples and witnesses -/

/-- Environment in which every fetch fails (connection refused / timeout on
the only seed page) while `run` itself resolves. -/
def envNoFetch : Env := ⟨fun _ => none, false, 0⟩

/-- A concrete fetched page with one relative link. -/
def pageA : Page := ⟨["/a"], "  hello  ", "<p>hi</p>"⟩

/-- Environment in which every fetch succeeds with `pageA`. -/
def envPageA : Env := ⟨fun _ => some pageA, false, 0⟩

/-- Environment in which `crawler.run` rejects before any fetch. -/
def envRunFails : Env := ⟨fun _ => none, true, 0⟩

/-- Host with continue-on-failure disabled. -/
def cfgAbort : HostConfig := ⟨false⟩

/-- Host with continue-on-failure enabled. -/
def cfgContinue : HostConfig := ⟨true⟩

/-- Node parameters whose `url` is statically empty for every index. -/
def paramsAllEmptyUrl : NodeParams := ⟨fun _ => "", fun _ => "extractText", fun _ => 1⟩

end CrawleeNode

namespace CrawleeNode

/-! ## Generic string lemmas -/

/-- Appending strings appends their character data. -/
theorem string_data_append (a b : String) : (a ++ b).data = a.data ++ b.data := rfl

/-- Rebuilding a string from its character data is the identity. -/
theorem string_mk_data (s : String) : (⟨s.data⟩ : String) = s := rfl

/-- String length is the length of the character data. -/
theorem string_length_data (s : String) : s.length = s.data.length := rfl

/-! ## Evaluation lemmas for `processItem` -/

/-- With a non-empty url and a run that resolves, the `extractLinks` branch
constructs the crawler, fetches the timestamped seed once, and pushes one
success record built from `uniqueLinks`. -/
theorem processItem_links_run (f : String → Option Page) (n : Nat) (cfg : HostConfig)
    (u : String) (d idx : Nat) (hu : u ≠ "") :
    processItem ⟨f, false, n⟩ cfg ⟨u, "extractLinks", d⟩ idx =
      [Event.constructCrawler (extractLinksOptions d),
       Event.fetchAttempt (appendTimestampToUrl u n),
       Event.output ⟨"success", "Crawling finished",
         PayloadData.links u (uniqueLinksOf ⟨f, false, n⟩ u)⟩] := by
  unfold processItem
  dsimp only
  rw [if_neg hu]
  rfl

/-- With a non-empty url and a run that resolves, the `extractText` branch
constructs the crawler, fetches once, and emits whatever its request
handler pushed. -/
theorem processItem_text_run (f : String → Option Page) (n : Nat) (cfg : HostConfig)
    (u : String) (d idx : Nat) (hu : u ≠ "") :
    processItem ⟨f, false, n⟩ cfg ⟨u, "extractText", d⟩ idx =
      [Event.constructCrawler singlePageOptions,
       Event.fetchAttempt (appendTimestampToUrl u n)] ++ textHandlerEvents ⟨f, false, n⟩ u := by
  unfold processItem
  dsimp only
  rw [if_neg hu]
  simp

/-- With a non-empty url and a run that resolves, the `extractHtml` branch
constructs the crawler, fetches once, and emits whatever its request
handler pushed. -/
theorem processItem_html_run (f : String → Option Page) (n : Nat) (cfg : HostConfig)
    (u : String) (d idx : Nat) (hu : u ≠ "") :
    processItem ⟨f, false, n⟩ cfg ⟨u, "extractHtml", d⟩ idx =
      [Event.constructCrawler singlePageOptions,
       Event.fetchAttempt (appendTimestampToUrl u n)] ++ htmlHandlerEvents ⟨f, false, n⟩ u := by
  unfold processItem
  dsimp only
  rw [if_neg hu]
  simp

/-- With a non-empty url, a known operation, and `crawler.run` rejecting,
the item's trace is: construction, then the `catch` effect, then exactly
one `teardown` from the `finally`, then (only when continue-on-failure is
disabled) the error propagating to the host. -/
theorem processItem_run_fails (f : String → Option Page) (n : Nat) (cfg : HostConfig)
    (u op : String) (d idx : Nat) (hu : u ≠ "")
    (hop : op = "extractLinks" ∨ op = "extractText" ∨ op = "extractHtml") :
    processItem ⟨f, true, n⟩ cfg ⟨u, op, d⟩ idx =
      [Event.constructCrawler
          (if op = "extractLinks" then extractLinksOptions d else singlePageOptions)] ++
        (if cfg.continueOnFail then [Event.pushInput ⟨ErrKind.runFailure, idx⟩] else []) ++
        [Event.teardown] ++
        (if cfg.continueOnFail then [] else [Event.raise ⟨ErrKind.runFailure, idx⟩]) := by
  rcases cfg with ⟨b⟩
  rcases hop with h | h | h <;> subst h <;> cases b <;>
    (unfold processItem; dsimp only; rw [if_neg hu]; rfl)

/-- With an empty url the validation check throws before any crawler is
constructed: the catch either pushes the annotated item back onto the input
list or the annotated error propagates, and nothing else happens. -/
theorem processItem_empty_url (env : Env) (cfg : HostConfig) (op : String) (d idx : Nat) :
    processItem env cfg ⟨"", op, d⟩ idx =
      (if cfg.continueOnFail then [Event.pushInput ⟨ErrKind.validation, idx⟩]
       else [Event.raise ⟨ErrKind.validation, idx⟩]) := by
  rcases cfg with ⟨b⟩
  cases b <;> rfl

/-- With a non-empty url and an operation matching none of the three
branches, the dispatch falls through: no event at all is produced. -/
theorem processItem_unknown_op (env : Env) (cfg : HostConfig) (u op : String) (d idx : Nat)
    (hu : u ≠ "") (h1 : op ≠ "extractLinks") (h2 : op ≠ "extractText")
    (h3 : op ≠ "extractHtml") :
    processItem env cfg ⟨u, op, d⟩ idx = [] := by
  unfold processItem
  dsimp only
  rw [if_neg hu, if_neg h1, if_neg h2, if_neg h3]
  rcases env with ⟨f, rf, n⟩
  cases rf <;> rfl

end CrawleeNode

namespace CrawleeNode

/-! ## Truncation lemmas -/

theorem truncateTo_length_le (cap : Nat) (s : String) : (truncateTo cap s).length ≤ cap + 3 := by
  have hlen : s.length = s.data.length := rfl
  unfold truncateTo
  split
  case isTrue h =>
    have hdata : (substringTo s cap ++ "...").data = s.data.take cap ++ ('.' :: '.' :: '.' :: []) := rfl
    rw [string_length_data, hdata, List.length_append, List.length_take]
    simp only [List.length_cons, List.length_nil]
    omega
  case isFalse h => omega

theorem truncateTo_of_le (cap : Nat) (s : String) (h : s.length ≤ cap) : truncateTo cap s = s := by
  unfold truncateTo
  rw [if_neg (by omega)]

theorem truncateTo_length_of_gt (cap : Nat) (s : String) (h : s.length > cap) :
    (truncateTo cap s).length = cap + 3 := by
  have hlen : s.length = s.data.length := rfl
  unfold truncateTo
  rw [if_pos h]
  have hdata : (substringTo s cap ++ "...").data = s.data.take cap ++ ('.' :: '.' :: '.' :: []) := rfl
  rw [string_length_data, hdata, List.length_append, List.length_take]
  simp only [List.length_cons, List.length_nil]
  omega

/-- C4: the FetchLimits are derived deterministically from the operation and
maxDepth: the crawler constructed first in each branch carries
`maxRequestsPerCrawl = min(100, maxDepth*50)`, `maxConcurrency = 5` for
extractLinks (so maxDepth 1 gives 50 and maxDepth 3 caps at 100), and
`maxRequestsPerCrawl = 1`, `maxConcurrency = 1` for extractText/extractHtml,
with a 30-second per-request timeout in all three operations. -/
theorem C4_fetch_limits (env : Env) (cfg : HostConfig) (u : String) (d idx : Nat)
    (hu : u ≠ "") :
    (processItem env cfg ⟨u, "extractLinks", d⟩ idx).head? =
        some (Event.constructCrawler (extractLinksOptions d)) ∧
    (processItem env cfg ⟨u, "extractText", d⟩ idx).head? =
        some (Event.constructCrawler singlePageOptions) ∧
    (processItem env cfg ⟨u, "extractHtml", d⟩ idx).head? =
        some (Event.constructCrawler singlePageOptions) ∧
    (extractLinksOptions d).maxRequestsPerCrawl = min 100 (d * 50) ∧
    (extractLinksOptions 1).maxRequestsPerCrawl = 50 ∧
    (extractLinksOptions 3).maxRequestsPerCrawl = 100 ∧
    (extractLinksOptions d).maxConcurrency = 5 ∧
    (extractLinksOptions d).requestHandlerTimeoutSecs = 30 ∧
    singlePageOptions.maxRequestsPerCrawl = 1 ∧
    singlePageOptions.maxConcurrency = 1 ∧
    singlePageOptions.requestHandlerTimeoutSecs = 30 := by
  rcases env with ⟨f, rf, n⟩
  refine ⟨?_, ?_, ?_, rfl, rfl, rfl, rfl, rfl, rfl, rfl, rfl⟩
  · cases rf
    · rw [processItem_links_run f n cfg u d idx hu]; rfl
    · rw [processItem_run_fails f n cfg u "extractLinks" d idx hu (Or.inl rfl)]; rfl
  · cases rf
    · rw [processItem_text_run f n cfg u d idx hu]; rfl
    · rw [processItem_run_fails f n cfg u "extractText" d idx hu (Or.inr (Or.inl rfl))]; rfl
  · cases rf
    · rw [processItem_html_run f n cfg u d idx hu]; rfl
    · rw [processItem_run_fails f n cfg u "extractHtml" d idx hu (Or.inr (Or.inr rfl))]; rfl

/-- Witness for C4 at concrete inputs. -/
theorem C4_fetch_limits_witness :
    (processItem envNoFetch cfgAbort ⟨"https://a.test/", "extractLinks", 2⟩ 0).head? =
        some (Event.constructCrawler (extractLinksOptions 2)) ∧
    (extractLinksOptions 2).maxRequestsPerCrawl = min 100 (2 * 50) ∧
    (extractLinksOptions 1).maxRequestsPerCrawl = 50 ∧
    (extractLinksOptions 3).maxRequestsPerCrawl = 100 := by
  obtain ⟨h1, h2, h3, h4, h5, h6, h7, h8, h9, h10, h11⟩ :=
    C4_fetch_limits envNoFetch cfgAbort "https://a.test/" 2 0 (by decide)
  exact ⟨h1, h4, h5, h6⟩

end CrawleeNode

namespace CrawleeNode

/-- C5: for every fetched page, the stored extractText result is the body's
visible text trimmed of leading/trailing whitespace and capped at 50,000
characters (never longer than 50,003 = 50,000 plus the three-character
marker; exactly 50,003 when the trimmed text exceeds the cap; identical to
the trimmed input when it does not), and the extractHtml result is the raw
body under the same policy with cap 100,000 (never longer than 100,003). -/
theorem C5_truncation (f : String → Option Page) (n : Nat) (cfg : HostConfig)
    (u : String) (d idx : Nat) (page : Page) (s b : String) (hu : u ≠ "")
    (hf : f (appendTimestampToUrl u n) = some page) :
    outputsOf (processItem ⟨f, false, n⟩ cfg ⟨u, "extractText", d⟩ idx) =
      [⟨"success", "Text extraction finished",
        PayloadData.text u (extractTextResult page.bodyText)⟩] ∧
    outputsOf (processItem ⟨f, false, n⟩ cfg ⟨u, "extractHtml", d⟩ idx) =
      [⟨"success", "HTML extraction finished",
        PayloadData.html u (extractHtmlResult page.body)⟩] ∧
    (extractTextResult s).length ≤ 50003 ∧
    (extractHtmlResult b).length ≤ 100003 ∧
    ((jsTrim s).length ≤ 50000 → extractTextResult s = jsTrim s) ∧
    (b.length ≤ 100000 → extractHtmlResult b = b) ∧
    ((jsTrim s).length > 50000 → (extractTextResult s).length = 50003) ∧
    (b.length > 100000 → (extractHtmlResult b).length = 100003) := by
  refine ⟨?_, ?_, ?_, ?_, ?_, ?_, ?_, ?_⟩
  · rw [processItem_text_run f n cfg u d idx hu]
    simp [outputsOf, textHandlerEvents, hf]
  · rw [processItem_html_run f n cfg u d idx hu]
    simp [outputsOf, htmlHandlerEvents, hf]
  · have := truncateTo_length_le 50000 (jsTrim s)
    unfold extractTextResult
    omega
  · have := truncateTo_length_le 100000 b
    unfold extractHtmlResult
    omega
  · intro h
    exact truncateTo_of_le 50000 (jsTrim s) h
  · intro h
    exact truncateTo_of_le 100000 b h
  · intro h
    have := truncateTo_length_of_gt 50000 (jsTrim s) h
    unfold extractTextResult
    omega
  · intro h
    have := truncateTo_length_of_gt 100000 b h
    unfold extractHtmlResult
    omega

/-- Witness for C5: a concrete page and a short body text, for which the
stored result is exactly the trimmed text and within the cap. -/
theorem C5_truncation_witness :
    outputsOf (processItem envPageA cfgAbort ⟨"https://x.test/", "extractText", 1⟩ 0) =
      [⟨"success", "Text extraction finished",
        PayloadData.text "https://x.test/" (extractTextResult pageA.bodyText)⟩] ∧
    (extractTextResult "  hello  ").length ≤ 50003 ∧
    extractTextResult "  hello  " = jsTrim "  hello  " := by
  obtain ⟨h1, h2, h3, h4, h5, h6, h7, h8⟩ :=
    C5_truncation (fun _ => some pageA) 0 cfgAbort "https://x.test/" 1 0 pageA
      "  hello  " "x" (by decide) rfl
  exact ⟨h1, h3, h5 (by decide)⟩

/-- C8: for every input item with an empty url, and every operation and
environment, the item's processing throws the validation error before any
crawler exists or any network call is attempted: the whole trace is just
the annotated error reaching the per-item boundary (pushed back or raised
according to continue-on-failure), and the list of attempted fetch URLs is
empty. -/
theorem C8_empty_url_validation (env : Env) (cfg : HostConfig) (op : String) (d idx : Nat) :
    processItem env cfg ⟨"", op, d⟩ idx =
      (if cfg.continueOnFail then [Event.pushInput ⟨ErrKind.validation, idx⟩]
       else [Event.raise ⟨ErrKind.validation, idx⟩]) ∧
    fetchUrlsOf (processItem env cfg ⟨"", op, d⟩ idx) = [] ∧
    teardownCountOf (processItem env cfg ⟨"", op, d⟩ idx) = 0 := by
  refine ⟨processItem_empty_url env cfg op d idx, ?_, ?_⟩ <;>
    (rw [processItem_empty_url env cfg op d idx]; rcases cfg with ⟨b⟩; cases b <;> rfl)

/-- C9: an input item whose operation is none of the three supported values
(but whose url is non-empty) falls through the dispatch: no fetch, no
output record, no raised error, no event at all — the item is silently
skipped. -/
theorem C9_unknown_op_skipped (env : Env) (cfg : HostConfig) (u op : String) (d idx : Nat)
    (hu : u ≠ "") (h1 : op ≠ "extractLinks") (h2 : op ≠ "extractText")
    (h3 : op ≠ "extractHtml") :
    processItem env cfg ⟨u, op, d⟩ idx = [] ∧
    outputsOf (processItem env cfg ⟨u, op, d⟩ idx) = [] ∧
    fetchUrlsOf (processItem env cfg ⟨u, op, d⟩ idx) = [] ∧
    raisedOf (processItem env cfg ⟨u, op, d⟩ idx) = none := by
  have h := processItem_unknown_op env cfg u op d idx hu h1 h2 h3
  exact ⟨h, by rw [h]; rfl, by rw [h]; rfl, by rw [h]; rfl⟩

/-- Witness for C9 at a concrete unknown operation. -/
theorem C9_unknown_op_skipped_witness :
    processItem envPageA cfgContinue ⟨"https://a.test/", "doSomething", 1⟩ 0 = [] ∧
    outputsOf (processItem envPageA cfgContinue ⟨"https://a.test/", "doSomething", 1⟩ 0) = [] ∧
    fetchUrlsOf (processItem envPageA cfgContinue ⟨"https://a.test/", "doSomething", 1⟩ 0) = [] ∧
    raisedOf (processItem envPageA cfgContinue ⟨"https://a.test/", "doSomething", 1⟩ 0) = none :=
  C9_unknown_op_skipped envPageA cfgContinue "https://a.test/" "doSomething" 1 0
    (by decide) (by decide) (by decide) (by decide)

end CrawleeNode

namespace CrawleeNode

/-- Counterexample to C1 as stated: with the seed fetch failing (connection
failure or timeout, so zero pages are successfully handled) the
extractLinks item still yields a success record whose payload is the empty
link list and no failure outcome, and the extractText item yields no
outcome at all — never a Failure with an explanatory message. -/
theorem C1_counterexample :
    outputsOf (processItem envNoFetch cfgAbort ⟨"https://a.test/", "extractLinks", 1⟩ 0) =
      [⟨"success", "Crawling finished", PayloadData.links "https://a.test/" []⟩] ∧
    raisedOf (processItem envNoFetch cfgAbort ⟨"https://a.test/", "extractLinks", 1⟩ 0) = none ∧
    fetchUrlsOf (processItem envNoFetch cfgAbort ⟨"https://a.test/", "extractLinks", 1⟩ 0) =
      ["https://a.test/?_=0"] ∧
    outputsOf (processItem envNoFetch cfgAbort ⟨"https://a.test/", "extractText", 1⟩ 0) = [] ∧
    raisedOf (processItem envNoFetch cfgAbort ⟨"https://a.test/", "extractText", 1⟩ 0) = none :=
  ⟨rfl, rfl, rfl, rfl, rfl⟩

/-- C1 as amended: when the seed fetch fails on every attempt (and `run`
itself resolves, as crawlee's `run` does on fetch failure), the
extractLinks item produces a success outcome with an empty link list, and
the extractText/extractHtml items produce no outcome record at all; no
failure outcome is produced and no error is raised for any of the three
operations. -/
theorem C1_zero_page_behavior (f : String → Option Page) (n : Nat) (cfg : HostConfig)
    (u : String) (d idx : Nat) (hu : u ≠ "") (hf : ∀ x, f x = none) :
    outputsOf (processItem ⟨f, false, n⟩ cfg ⟨u, "extractLinks", d⟩ idx) =
      [⟨"success", "Crawling finished", PayloadData.links u []⟩] ∧
    raisedOf (processItem ⟨f, false, n⟩ cfg ⟨u, "extractLinks", d⟩ idx) = none ∧
    outputsOf (processItem ⟨f, false, n⟩ cfg ⟨u, "extractText", d⟩ idx) = [] ∧
    raisedOf (processItem ⟨f, false, n⟩ cfg ⟨u, "extractText", d⟩ idx) = none ∧
    outputsOf (processItem ⟨f, false, n⟩ cfg ⟨u, "extractHtml", d⟩ idx) = [] ∧
    raisedOf (processItem ⟨f, false, n⟩ cfg ⟨u, "extractHtml", d⟩ idx) = none := by
  refine ⟨?_, ?_, ?_, ?_, ?_, ?_⟩
  · rw [processItem_links_run f n cfg u d idx hu]
    simp [outputsOf, uniqueLinksOf, linksCrawlResult, hf, dedup]
  · rw [processItem_links_run f n cfg u d idx hu]; rfl
  · rw [processItem_text_run f n cfg u d idx hu]
    simp [outputsOf, textHandlerEvents, hf]
  · rw [processItem_text_run f n cfg u d idx hu]
    simp [raisedOf, textHandlerEvents, hf]
  · rw [processItem_html_run f n cfg u d idx hu]
    simp [outputsOf, htmlHandlerEvents, hf]
  · rw [processItem_html_run f n cfg u d idx hu]
    simp [raisedOf, htmlHandlerEvents, hf]

/-- Witness for the amended C1 at a concrete all-failing fetch. -/
theorem C1_zero_page_behavior_witness :
    outputsOf (processItem envNoFetch cfgContinue ⟨"https://b.test/", "extractLinks", 2⟩ 1) =
      [⟨"success", "Crawling finished", PayloadData.links "https://b.test/" []⟩] ∧
    raisedOf (processItem envNoFetch cfgContinue ⟨"https://b.test/", "extractLinks", 2⟩ 1) = none ∧
    outputsOf (processItem envNoFetch cfgContinue ⟨"https://b.test/", "extractText", 2⟩ 1) = [] ∧
    raisedOf (processItem envNoFetch cfgContinue ⟨"https://b.test/", "extractText", 2⟩ 1) = none ∧
    outputsOf (processItem envNoFetch cfgContinue ⟨"https://b.test/", "extractHtml", 2⟩ 1) = [] ∧
    raisedOf (processItem envNoFetch cfgContinue ⟨"https://b.test/", "extractHtml", 2⟩ 1) = none :=
  C1_zero_page_behavior (fun _ => none) 0 cfgContinue "https://b.test/" 2 1
    (by decide) (fun _ => rfl)

/-- Counterexample to C3 as stated: on the normal success exit path the
source nulls `crawler` before the `finally`, so although a crawler was
constructed for the item, `teardown()` is invoked zero times — not exactly
once on every exit path. -/
theorem C3_counterexample :
    Event.constructCrawler singlePageOptions ∈
        processItem envPageA cfgAbort ⟨"https://x.test/", "extractText", 1⟩ 0 ∧
    teardownCountOf (processItem envPageA cfgAbort ⟨"https://x.test/", "extractText", 1⟩ 0) = 0 ∧
    raisedOf (processItem envPageA cfgAbort ⟨"https://x.test/", "extractText", 1⟩ 0) = none := by
  refine ⟨?_, rfl, rfl⟩
  decide

/-- C3 as amended: when an error escapes `crawler.run` after the crawler
was constructed, `teardown()` is invoked exactly once for the item, and it
runs before the error reaches the caller (the trace ends `…, teardown,
raise` when continue-on-failure is disabled, and `…, pushInput, teardown`
when it is enabled); on the normal success path the nulled crawler means
the `finally` performs no teardown call. -/
theorem C3_teardown_on_error (f : String → Option Page) (n : Nat) (cfg : HostConfig)
    (u op : String) (d idx : Nat) (hu : u ≠ "")
    (hop : op = "extractLinks" ∨ op = "extractText" ∨ op = "extractHtml") :
    teardownCountOf (processItem ⟨f, true, n⟩ cfg ⟨u, op, d⟩ idx) = 1 ∧
    (cfg.continueOnFail = false →
      processItem ⟨f, true, n⟩ cfg ⟨u, op, d⟩ idx =
        [Event.constructCrawler
            (if op = "extractLinks" then extractLinksOptions d else singlePageOptions),
         Event.teardown, Event.raise ⟨ErrKind.runFailure, idx⟩]) ∧
    (cfg.continueOnFail = true →
      processItem ⟨f, true, n⟩ cfg ⟨u, op, d⟩ idx =
        [Event.constructCrawler
            (if op = "extractLinks" then extractLinksOptions d else singlePageOptions),
         Event.pushInput ⟨ErrKind.runFailure, idx⟩, Event.teardown]) := by
  rw [processItem_run_fails f n cfg u op d idx hu hop]
  rcases cfg with ⟨b⟩
  cases b
  · exact ⟨rfl, fun _ => rfl, fun hb => absurd hb (by simp)⟩
  · exact ⟨rfl, fun hb => absurd hb (by simp), fun _ => rfl⟩

/-- Witness for the amended C3: a concrete failing run with
continue-on-failure disabled tears down exactly once, before the raise. -/
theorem C3_teardown_on_error_witness :
    teardownCountOf (processItem envRunFails cfgAbort ⟨"https://a.test/", "extractText", 1⟩ 0) = 1 ∧
    processItem envRunFails cfgAbort ⟨"https://a.test/", "extractText", 1⟩ 0 =
      [Event.constructCrawler singlePageOptions, Event.teardown,
       Event.raise ⟨ErrKind.runFailure, 0⟩] := by
  obtain ⟨h1, h2, h3⟩ := C3_teardown_on_error (fun _ => none) 0 cfgAbort "https://a.test/"
    "extractText" 1 0 (by decide) (Or.inr (Or.inl rfl))
  exact ⟨h1, h2 rfl⟩

/-- Helper for C2: with every item's `url` parameter statically empty and
continue-on-failure enabled, each iteration pushes one annotated item back
onto the input list, so the loop-bound `itemIndex < items.length` stays
true forever and the loop never terminates, for any amount of fuel. -/
theorem executeLoop_empty_url_stuck (fuel idx len : Nat) (acc : List OutRecord)
    (h : idx < len) :
    executeLoop envNoFetch cfgContinue paramsAllEmptyUrl fuel len idx acc = none := by
  induction fuel generalizing idx len acc with
  | zero => simp [executeLoop, h]
  | succ m ih =>
    have hstep : executeLoop envNoFetch cfgContinue paramsAllEmptyUrl (m + 1) len idx acc =
        if idx < len then
          executeLoop envNoFetch cfgContinue paramsAllEmptyUrl m (len + 1) (idx + 1) (acc ++ [])
        else some (Except.ok acc) := rfl
    rw [hstep, if_pos h]
    exact ih (idx + 1) (len + 1) (acc ++ []) (by omega)

/-- C2 (evidence for the code bug): with continue-on-failure enabled and a
failing item, the `catch` appends the annotated item to the *input* list
`items` rather than to `returnData`, so the loop reprocesses it and never
terminates — the annotated payload never reaches the output stream; with
continue-on-failure disabled the loop does abort immediately with the
error annotated with the failing item's position, as the claim states. -/
theorem C2_continue_on_fail_bug :
    (∀ fuel, executeLoop envNoFetch cfgContinue paramsAllEmptyUrl fuel 1 0 [] = none) ∧
    executeLoop envNoFetch cfgAbort paramsAllEmptyUrl 3 2 0 [] =
      some (Except.error ⟨ErrKind.validation, 0⟩) ∧
    pushCountOf (processItem envNoFetch cfgContinue ⟨"", "extractText", 1⟩ 0) = 1 ∧
    outputsOf (processItem envNoFetch cfgContinue ⟨"", "extractText", 1⟩ 0) = [] :=
  ⟨fun fuel => executeLoop_empty_url_stuck fuel 0 1 [] (by omega), rfl, rfl, rfl⟩

end CrawleeNode

namespace CrawleeNode

/-! ## URL model lemmas: a serialized parse re-parses to itself -/

theorem validScheme_no_colon (s : String) (hs : validScheme s = true) :
    ∀ c ∈ s.data, c ≠ ':' := by
  intro c hc
  unfold validScheme at hs
  rcases hd : s.data with _ | ⟨c0, rest⟩
  · rw [hd] at hc; simp at hc
  · rw [hd] at hs hc
    simp only [Bool.and_eq_true, List.all_eq_true] at hs
    rcases List.mem_cons.mp hc with rfl | hmem
    · intro heq; rw [heq] at hs; exact absurd hs.1 (by decide)
    · intro heq
      have h2 := hs.2 c hmem
      rw [heq] at h2
      exact absurd h2 (by decide)

theorem splitSchemeSep_append (l r : List Char) (hl : ∀ c ∈ l, c ≠ ':') :
    splitSchemeSep (l ++ ':' :: '/' :: '/' :: r) = some (l, r) := by
  induction l with
  | nil => rfl
  | cons c t ih =>
    have hc : c ≠ ':' := hl c (List.mem_cons_self c t)
    have ih' := ih (fun x hx => hl x (List.mem_cons_of_mem c hx))
    simp only [List.cons_append, splitSchemeSep, if_neg hc, List.append_eq]
    rw [ih']
    rfl

theorem takeWhile_middle (q : Char → Bool) (l r : List Char) (c : Char)
    (hl : ∀ x ∈ l, q x = true) (hc : q c = false) :
    (l ++ c :: r).takeWhile q = l ∧ (l ++ c :: r).dropWhile q = c :: r := by
  induction l with
  | nil => simp [List.takeWhile_cons, List.dropWhile_cons, hc]
  | cons a t ih =>
    have ha : q a = true := hl a (List.mem_cons_self a t)
    have ih' := ih (fun x hx => hl x (List.mem_cons_of_mem a hx))
    constructor
    · simp [List.takeWhile_cons, ha, ih'.1]
    · simp [List.dropWhile_cons, ha, ih'.2]

theorem validHost_notHostEnd (s : String) (hh : validHost s = true) :
    ∀ c ∈ s.data, notHostEnd c = true := by
  intro c hc
  unfold validHost at hh
  simp only [Bool.and_eq_true, List.all_eq_true] at hh
  have hforb := hh.2 c hc
  simp only [forbiddenHostChar] at hforb
  simp only [notHostEnd]
  simp at hforb ⊢
  tauto

theorem serializeUrl_data (sch h p : String) :
    (serializeUrl ⟨sch, h, p⟩).data = sch.data ++ ':' :: '/' :: '/' :: (h.data ++ p.data) := by
  have hsep : ("://" : String).data = [':', '/', '/'] := rfl
  show (sch ++ "://" ++ h ++ p).data = _
  rw [string_data_append, string_data_append, string_data_append, hsep]
  simp [List.append_assoc]

theorem parseAbsolute_serialize (w : ParsedUrl) (hs : validScheme w.scheme = true)
    (hh : validHost w.host = true) (hp : rootRelative w.pathAndRest = true) :
    parseAbsolute (serializeUrl w) = some w := by
  rcases w with ⟨sch, h, p⟩
  dsimp only at hs hh hp
  rcases hpd : p.data with _ | ⟨c, pt⟩
  · unfold rootRelative at hp
    rw [hpd] at hp
    simp at hp
  · unfold rootRelative at hp
    rw [hpd] at hp
    simp at hp
    subst hp
    unfold parseAbsolute
    rw [serializeUrl_data]
    rw [splitSchemeSep_append sch.data (h.data ++ p.data) (validScheme_no_colon sch hs)]
    rw [hpd]
    have hq : ∀ x ∈ h.data, notHostEnd x = true := validHost_notHostEnd h hh
    have hslash : notHostEnd '/' = false := by decide
    have hmid := takeWhile_middle notHostEnd h.data pt '/' hq hslash
    dsimp only
    rw [hmid.1, hmid.2, string_mk_data sch, string_mk_data h, if_pos hs, if_pos hh]
    show some (ParsedUrl.mk sch h (String.mk ('/' :: pt))) = some (ParsedUrl.mk sch h p)
    rw [← hpd, string_mk_data p]

end CrawleeNode

namespace CrawleeNode

theorem parseAbsolute_sound (s : String) (w : ParsedUrl) (h : parseAbsolute s = some w) :
    validScheme w.scheme = true ∧ validHost w.host = true ∧
      rootRelative w.pathAndRest = true := by
  unfold parseAbsolute at h
  split at h
  · simp at h
  case _ schemeChars rest heq =>
    dsimp only at h
    split at h
    case isTrue hvs =>
      split at h
      case isTrue hvh =>
        split at h
        case isTrue hroot =>
          cases h
          exact ⟨hvs, hvh, hroot⟩
        case isFalse =>
          cases h
          exact ⟨hvs, hvh, rfl⟩
      case isFalse => simp at h
    case isFalse => simp at h

theorem rootRelative_append (a b : String) (ha : rootRelative a = true) :
    rootRelative (a ++ b) = true := by
  unfold rootRelative at ha ⊢
  rw [string_data_append]
  rcases had : a.data with _ | ⟨c, t⟩
  · rw [had] at ha; simp at ha
  · rw [had] at ha
    simp only [List.cons_append]
    simpa using ha

theorem dirOf_rootRelative (p : String) (hp : rootRelative p = true) :
    rootRelative (dirOf p) = true := by
  unfold rootRelative at hp
  rcases hpd : p.data with _ | ⟨c, t⟩
  · rw [hpd] at hp; simp at hp
  · rw [hpd] at hp
    simp at hp
    subst hp
    unfold dirOf
    rw [hpd]
    have h1 : ('/' :: t).takeWhile notQueryStart = '/' :: t.takeWhile notQueryStart := by
      rw [List.takeWhile_cons]
      simp [notQueryStart]
    rw [h1]
    show rootRelative ⟨dirOfChars ('/' :: t.takeWhile notQueryStart)⟩ = true
    unfold dirOfChars
    dsimp only
    split
    · rfl
    · rfl

theorem resolveUrl_valid (href base out : String) (h : resolveUrl href base = some out) :
    isValidAbsoluteUrl out = true := by
  unfold resolveUrl at h
  split at h
  case _ w hw =>
    cases h
    obtain ⟨h1, h2, h3⟩ := parseAbsolute_sound href w hw
    unfold isValidAbsoluteUrl
    rw [parseAbsolute_serialize w h1 h2 h3]
    rfl
  case _ hw =>
    split at h
    · simp at h
    case _ b hb =>
      obtain ⟨hb1, hb2, hb3⟩ := parseAbsolute_sound base b hb
      split at h
      · rcases hres : parseAbsolute (b.scheme ++ ":" ++ href) with _ | w2
        · rw [hres] at h; simp at h
        · rw [hres] at h
          simp only [Option.map_some'] at h
          cases h
          obtain ⟨g1, g2, g3⟩ := parseAbsolute_sound _ w2 hres
          unfold isValidAbsoluteUrl
          rw [parseAbsolute_serialize w2 g1 g2 g3]
          rfl
      · split at h
        case isTrue hroot =>
          cases h
          unfold isValidAbsoluteUrl
          rw [parseAbsolute_serialize ⟨b.scheme, b.host, href⟩ hb1 hb2 hroot]
          rfl
        case isFalse =>
          split at h
          · cases h
            unfold isValidAbsoluteUrl
            rw [parseAbsolute_serialize b hb1 hb2 hb3]
            rfl
          · cases h
            unfold isValidAbsoluteUrl
            have hdir : rootRelative (dirOf b.pathAndRest ++ href) = true :=
              rootRelative_append _ _ (dirOf_rootRelative _ hb3)
            rw [parseAbsolute_serialize ⟨b.scheme, b.host, dirOf b.pathAndRest ++ href⟩
              hb1 hb2 hdir]
            rfl

/-! ## Deduplication lemmas -/

theorem dedup_nodup (l : List String) : (dedup l).Nodup := by
  induction l with
  | nil => simp [dedup]
  | cons x xs ih =>
    rw [dedup, List.nodup_cons]
    constructor
    · intro hmem
      have h2 := (List.mem_filter.mp hmem).2
      simp at h2
    · exact List.Nodup.filter _ ih

theorem mem_of_mem_dedup (x : String) : ∀ l : List String, x ∈ dedup l → x ∈ l := by
  intro l
  induction l with
  | nil => intro h; simp [dedup] at h
  | cons a t ih =>
    intro h
    rw [dedup] at h
    rcases List.mem_cons.mp h with rfl | h'
    · exact List.mem_cons_self x t
    · exact List.mem_cons_of_mem a (ih (List.mem_filter.mp h').1)

end CrawleeNode

namespace CrawleeNode

/-- Evaluation of `uniqueLinks` as a function of the fetch outcome. -/
theorem uniqueLinksOf_eval (f : String → Option Page) (n : Nat) (u : String) :
    uniqueLinksOf ⟨f, false, n⟩ u =
      match f (appendTimestampToUrl u n) with
      | some page => dedup (handlerLinks page.hrefs (appendTimestampToUrl u n))
      | none => [] := by
  unfold uniqueLinksOf linksCrawlResult
  dsimp only
  rcases f (appendTimestampToUrl u n) with _ | page
  · rfl
  · simp

/-- C6: for every environment and non-empty seed URL, the links list inside
any success payload returned by the extractLinks branch contains no
duplicate entries, and every entry is an absolute, syntactically valid URL
(it re-parses in the URL model). -/
theorem C6_links_dedup_valid (env : Env) (cfg : HostConfig) (u : String) (d idx : Nat)
    (hu : u ≠ "") :
    ∀ r ∈ outputsOf (processItem env cfg ⟨u, "extractLinks", d⟩ idx),
      goodLinks (linksOfRecord r) := by
  rcases env with ⟨f, rf, n⟩
  cases rf
  · rw [processItem_links_run f n cfg u d idx hu]
    intro r hr
    simp only [outputsOf, List.filterMap] at hr
    simp at hr
    subst hr
    show goodLinks (uniqueLinksOf ⟨f, false, n⟩ u)
    rcases hfv : f (appendTimestampToUrl u n) with _ | page
    · have hempty : uniqueLinksOf ⟨f, false, n⟩ u = [] := by
        rw [uniqueLinksOf_eval, hfv]
      rw [hempty]
      exact ⟨List.nodup_nil, by simp⟩
    · have hval : uniqueLinksOf ⟨f, false, n⟩ u =
          dedup (handlerLinks page.hrefs (appendTimestampToUrl u n)) := by
        rw [uniqueLinksOf_eval, hfv]
      rw [hval]
      refine ⟨dedup_nodup _, ?_⟩
      intro x hx
      have hx2 := mem_of_mem_dedup x _ hx
      unfold handlerLinks at hx2
      obtain ⟨href, _, hres⟩ := List.mem_filterMap.mp hx2
      by_cases hemp : href = ""
      · rw [if_pos hemp] at hres; simp at hres
      · rw [if_neg hemp] at hres
        exact resolveUrl_valid href (appendTimestampToUrl u n) x hres
  · rw [processItem_run_fails f n cfg u "extractLinks" d idx hu (Or.inl rfl)]
    intro r hr
    rcases cfg with ⟨b⟩
    cases b <;> simp [outputsOf] at hr

/-- Witness for C6 at a concrete page with one relative link. -/
theorem C6_links_dedup_valid_witness :
    goodLinks (linksOfRecord ⟨"success", "Crawling finished",
      PayloadData.links "https://x.test/" ["https://x.test/a"]⟩) := by
  have h := C6_links_dedup_valid envPageA cfgAbort "https://x.test/" 1 0 (by decide)
  exact h ⟨"success", "Crawling finished",
    PayloadData.links "https://x.test/" ["https://x.test/a"]⟩ (by decide)

/-- Counterexample to C7 as stated: the WHATWG URL parser accepts `%%%` as
a path-relative reference (an invalid percent-escape is only a non-fatal
validation error), so normalizing the three hrefs against
`https://x.test/` yields a set that also contains `https://x.test/%%%` —
not exactly the claimed two-element set. -/
theorem C7_counterexample :
    resolveUrl "%%%" "https://x.test/" = some "https://x.test/%%%" ∧
    "https://x.test/%%%" ∈
      dedup (handlerLinks ["/a", "https://x.test/b", "%%%"] "https://x.test/") := by
  exact ⟨by decide, by decide⟩

/-- C7 as amended: normalizing hrefs `/a`, `https://x.test/b`, `%%%`
against base `https://x.test/` yields exactly
`{https://x.test/a, https://x.test/b, https://x.test/%%%}` (the malformed
percent-escape resolves as a path segment rather than erroring), while an
href that genuinely fails to parse (forbidden host character, e.g. `//[`)
is silently dropped with no error surfaced — the crawl continues and the
other links are still returned. -/
theorem C7_normalization_amended :
    dedup (handlerLinks ["/a", "https://x.test/b", "%%%"] "https://x.test/") =
      ["https://x.test/a", "https://x.test/b", "https://x.test/%%%"] ∧
    resolveUrl "//[" "https://x.test/" = none ∧
    dedup (handlerLinks ["/a", "https://x.test/b", "//["] "https://x.test/") =
      ["https://x.test/a", "https://x.test/b"] := by
  exact ⟨by decide, by decide, by decide⟩

/-- C10: every fetch is issued against the seed URL augmented with the
timestamp parameter — joined with `&` when the URL already contains `?`,
otherwise with `?` — while the `url` field of every output payload is the
original caller-supplied URL, unchanged by the cache-busting rewrite and
independent of anything the fetch returned. -/
theorem C10_cache_busting (f : String → Option Page) (n : Nat) (cfg : HostConfig)
    (u op : String) (d idx : Nat) (hu : u ≠ "")
    (hop : op = "extractLinks" ∨ op = "extractText" ∨ op = "extractHtml") :
    fetchUrlsOf (processItem ⟨f, false, n⟩ cfg ⟨u, op, d⟩ idx) =
      [appendTimestampToUrl u n] ∧
    outputsUseUrl (processItem ⟨f, false, n⟩ cfg ⟨u, op, d⟩ idx) u ∧
    (containsChar u '?' = true → appendTimestampToUrl u n = u ++ "&" ++ "_=" ++ toString n) ∧
    (containsChar u '?' = false → appendTimestampToUrl u n = u ++ "?" ++ "_=" ++ toString n) := by
  refine ⟨?_, ?_, ?_, ?_⟩
  · rcases hop with h | h | h <;> subst h
    · rw [processItem_links_run f n cfg u d idx hu]; rfl
    · rw [processItem_text_run f n cfg u d idx hu]
      rcases hfv : f (appendTimestampToUrl u n) with _ | page <;>
        simp [fetchUrlsOf, textHandlerEvents, hfv]
    · rw [processItem_html_run f n cfg u d idx hu]
      rcases hfv : f (appendTimestampToUrl u n) with _ | page <;>
        simp [fetchUrlsOf, htmlHandlerEvents, hfv]
  · rcases hop with h | h | h <;> subst h
    · rw [processItem_links_run f n cfg u d idx hu]
      intro r hr
      simp [outputsOf] at hr
      subst hr
      rfl
    · rw [processItem_text_run f n cfg u d idx hu]
      intro r hr
      rcases hfv : f (appendTimestampToUrl u n) with _ | page <;>
        simp [outputsOf, textHandlerEvents, hfv] at hr
      subst hr
      rfl
    · rw [processItem_html_run f n cfg u d idx hu]
      intro r hr
      rcases hfv : f (appendTimestampToUrl u n) with _ | page <;>
        simp [outputsOf, htmlHandlerEvents, hfv] at hr
      subst hr
      rfl
  · intro h
    unfold appendTimestampToUrl
    rw [h]
    rfl
  · intro h
    unfold appendTimestampToUrl
    rw [h]
    rfl

/-- Witness for C10 at a concrete item. -/
theorem C10_cache_busting_witness :
    fetchUrlsOf (processItem envPageA cfgAbort ⟨"https://x.test/", "extractText", 1⟩ 0) =
      [appendTimestampToUrl "https://x.test/" 0] ∧
    outputsUseUrl (processItem envPageA cfgAbort ⟨"https://x.test/", "extractText", 1⟩ 0)
      "https://x.test/" ∧
    appendTimestampToUrl "https://x.test/" 0 =
      "https://x.test/" ++ "?" ++ "_=" ++ toString 0 := by
  obtain ⟨h1, h2, h3, h4⟩ := C10_cache_busting (fun _ => some pageA) 0 cfgAbort
    "https://x.test/" "extractText" 1 0 (by decide) (Or.inr (Or.inl rfl))
  exact ⟨h1, h2, h4 (by decide)⟩

end CrawleeNode
